import Mathlib

/-!
# Verification of the IntelligentSPM RAG core

A shallow embedding, in Lean 4, of the core algorithms of the
IntelligentSPM retrieval-augmented question-answering backend:

* `normalizeEmbedding` (src/lib/services/embedding.service.ts) — pad /
  truncate an embedding vector to a target dimensionality;
* the Answer Library semantic cache (src/lib/services/answer-library.service.ts)
  — `searchAnswerLibrary` (the SQL lookup), `calculateConfidence` (Wilson
  lower bound) and `updateAnswerConfidence` (feedback-driven counters and
  deactivation);
* the feedback route (`POST /api/.../feedback`) — duplicate rejection;
* `generateLLMResponse` (askspm.service.ts) — ordered backend fallback;
* the streaming route — the SSE event sequence on the cache-hit and
  cache-miss paths.

Numeric values that the TypeScript source holds in IEEE doubles are
modelled as exact rationals (`ℚ`) where the source only compares and
copies them, and as reals (`ℝ`) where the source computes with
`Math.sqrt` (the Wilson score).  Values stored in PostgreSQL (similarity,
confidence) are modelled as `ℚ`.

The pgvector operator `<=>` (cosine distance) runs inside PostgreSQL and
is external to this repository; a row's cosine similarity to the fixed
input vector is therefore modelled as a per-row field `similarity`
(equal to `1 - (query_embedding <=> input)`), so that every claim about
the lookup is quantified over all possible similarity values.
-/

namespace IntelligentSPM

/-! ## Embedding normalization (embedding.service.ts, lines 165–180) -/

/-- `normalizeEmbedding` from embedding.service.ts: if the raw vector has
the target length it is returned unchanged; if longer it is truncated
(`slice(0, targetDims)`); if shorter, the source's `while` loop pushes
zeros until the length reaches `targetDims`, i.e. appends
`targetDims - length` zeros. -/
def normalizeEmbedding (embedding : List ℚ) (targetDims : ℕ) : List ℚ :=
  if embedding.length = targetDims then
    embedding
  else if embedding.length > targetDims then
    embedding.take targetDims
  else
    embedding ++ List.replicate (targetDims - embedding.length) 0

/-! ## Answer Library: configuration and lookup
(answer-library.service.ts, lines 19–29 and 113–181) -/

/-- `AnswerLibraryConfig` from answer-library.service.ts. -/
structure AnswerLibraryConfig where
  similarityThreshold : ℚ
  minConfidence : ℚ
  embeddingDimensions : ℕ

/-- `DEFAULT_CONFIG` from answer-library.service.ts. -/
def DEFAULT_CONFIG : AnswerLibraryConfig :=
  { similarityThreshold := 92/100
  , minConfidence := 1/2
  , embeddingDimensions := 768 }

/-- A `Partial<AnswerLibraryConfig>` override: each field optionally
present. -/
structure PartialConfig where
  similarityThreshold : Option ℚ := none
  minConfidence : Option ℚ := none
  embeddingDimensions : Option ℕ := none

/-- The spread `{ ...DEFAULT_CONFIG, ...config }`. -/
def mergeConfig (config : PartialConfig) : AnswerLibraryConfig :=
  { similarityThreshold := config.similarityThreshold.getD DEFAULT_CONFIG.similarityThreshold
  , minConfidence := config.minConfidence.getD DEFAULT_CONFIG.minConfidence
  , embeddingDimensions := config.embeddingDimensions.getD DEFAULT_CONFIG.embeddingDimensions }

/-- One row of the `answer_library` table, as seen by the lookup query.
`similarity` models `1 - (query_embedding <=> input)` for the fixed
input vector of the current call (the cosine computation itself happens
inside pgvector).  Rows in this model all carry a stored embedding (the
insert path always writes one), so the SQL guard
`query_embedding IS NOT NULL` is identically true on them. -/
structure LibraryRow where
  id : ℕ
  queryText : String
  answerText : String
  confidenceScore : ℚ
  similarity : ℚ
  useCount : ℕ
  lastUsedAt : ℤ
  isActive : Bool
deriving DecidableEq, Repr

/-- The `WHERE` clause of the lookup query (answer-library.service.ts,
lines 150–153): active, confidence at least the minimum, similarity at
least the threshold (both comparisons `>=`, boundary inclusive). -/
def passesFilters (minConfidence similarityThreshold : ℚ) (row : LibraryRow) : Bool :=
  row.isActive && decide (minConfidence ≤ row.confidenceScore)
    && decide (similarityThreshold ≤ row.similarity)

/-- `ORDER BY query_embedding <=> input LIMIT 1` over the filtered rows:
the row with the smallest cosine distance, i.e. the largest
`similarity`.  The `ORDER BY` reads only the distance; PostgreSQL leaves
the relative order of distance-ties unspecified, which we refine
deterministically to table (row) order: among equal similarities the
earliest row wins.  -/
def bestRow : List LibraryRow → Option LibraryRow
  | [] => none
  | row :: rest =>
    match bestRow rest with
    | none => some row
    | some b => if b.similarity > row.similarity then some b else some row

/-- The row selected by `searchAnswerLibrary`'s SQL query: filter by the
`WHERE` clause, then take the first row of the distance ordering. -/
def searchAnswerLibraryRow (rows : List LibraryRow) (threshold : Option ℚ)
    (config : PartialConfig) : Option LibraryRow :=
  let finalConfig := mergeConfig config
  let similarityThreshold := threshold.getD finalConfig.similarityThreshold
  bestRow (rows.filter (passesFilters finalConfig.minConfidence similarityThreshold))

/-- `LibraryMatch` from answer-library.service.ts. -/
structure LibraryMatch where
  id : ℕ
  queryText : String
  answerText : String
  confidenceScore : ℚ
  similarity : ℚ
  useCount : ℕ
deriving DecidableEq, Repr

/-- The return value built from the matched row (answer-library.service.ts,
lines 172–180); `useCount` is returned already incremented. -/
def toLibraryMatch (row : LibraryRow) : LibraryMatch :=
  { id := row.id
  , queryText := row.queryText
  , answerText := row.answerText
  , confidenceScore := row.confidenceScore
  , similarity := row.similarity
  , useCount := row.useCount + 1 }

/-- `searchAnswerLibrary` (answer-library.service.ts, lines 113–181):
returns the best matching row as a `LibraryMatch`, or `none` when no row
passes the filters.  (The side effect incrementing `use_count` /
`last_used_at` on the matched row is not needed by the claims below.) -/
def searchAnswerLibrary (rows : List LibraryRow) (threshold : Option ℚ := none)
    (config : PartialConfig := {}) : Option LibraryMatch :=
  (searchAnswerLibraryRow rows threshold config).map toLibraryMatch

/-! ## Wilson score confidence (answer-library.service.ts, lines 78–96) -/

/-- `calculateConfidence` from answer-library.service.ts: the Wilson
score lower bound at `z = 1.96`, clamped to `[0, 1]`, with full
confidence `1.0` when there are no votes. -/
noncomputable def calculateConfidence (thumbsUp thumbsDown : ℕ) : ℝ :=
  let total : ℝ := (thumbsUp : ℝ) + (thumbsDown : ℝ)
  if total = 0 then 1
  else
    let p := (thumbsUp : ℝ) / total
    let z : ℝ := 196/100
    let denominator := 1 + z * z / total
    let center := p + z * z / (2 * total)
    let spread := z * Real.sqrt ((p * (1 - p) + z * z / (4 * total)) / total)
    let score := (center - spread) / denominator
    max 0 (min 1 score)

/-- Modelled from the spec: the confidence formula of §4.3 as written in
the spec's pseudocode block (`p`, `center`, `spread`,
`clamp((center - spread)/(1 + z²/total), 0, 1)`, and `1.0` when
`total == 0`), used only to compare `calculateConfidence` against the
spec's own words. -/
noncomputable def wilsonSpecConfidence (positive negative : ℕ) : ℝ :=
  let total : ℝ := (positive : ℝ) + (negative : ℝ)
  if total = 0 then 1
  else
    let p := (positive : ℝ) / total
    let z : ℝ := 196/100
    let center := p + z ^ 2 / (2 * total)
    let spread := z * Real.sqrt ((p * (1 - p) + z ^ 2 / (4 * total)) / total)
    max 0 (min 1 ((center - spread) / (1 + z ^ 2 / total)))

/-! ## Feedback-driven confidence update
(answer-library.service.ts, lines 248–291) -/

/-- The two feedback kinds accepted by the service. -/
inductive FeedbackType where
  | thumbs_up
  | thumbs_down
deriving DecidableEq, Repr

/-- The fields of an `answer_library` record read and written by
`updateAnswerConfidence`. -/
structure AnswerRecord where
  thumbsUpCount : ℕ
  thumbsDownCount : ℕ
  confidenceScore : ℝ
  isActive : Bool

/-- `updateAnswerConfidence` (answer-library.service.ts, lines 248–291)
as a pure state transformer on the looked-up record: bump the matching
counter, recompute the Wilson confidence, and set `isActive := false`
when the new confidence is below `0.3` with at least `5` total votes
(the Prisma update passes `undefined` otherwise, leaving `isActive`
unchanged). -/
noncomputable def updateAnswerConfidence (answer : AnswerRecord)
    (feedbackType : FeedbackType) : AnswerRecord :=
  let newThumbsUp := if feedbackType = .thumbs_up then
    answer.thumbsUpCount + 1 else answer.thumbsUpCount
  let newThumbsDown := if feedbackType = .thumbs_down then
    answer.thumbsDownCount + 1 else answer.thumbsDownCount
  let newConfidence := calculateConfidence newThumbsUp newThumbsDown
  let totalVotes := newThumbsUp + newThumbsDown
  let shouldDeactivate := decide (newConfidence < 3/10) && decide (totalVotes ≥ 5)
  { thumbsUpCount := newThumbsUp
  , thumbsDownCount := newThumbsDown
  , confidenceScore := newConfidence
  , isActive := if shouldDeactivate then false else answer.isActive }

/-! ## Generation orchestrator (askspm.service.ts, `generateLLMResponse`,
lines 123–246) -/

/-- The observable outcome of one backend call: a successful response
(HTTP ok with a parsed answer), or a failure (network error or
non-success status). -/
inductive BackendOutcome where
  | ok (answer : String)
  | fail
deriving DecidableEq, Repr

/-- The three generation backends, in the source's priority order. -/
inductive Provider where
  | gateway
  | ollama
  | openai
deriving DecidableEq, Repr

/-- The environment `generateLLMResponse` runs in: which backends are
configured / reachable, and how each would respond if called. -/
structure GenEnv where
  gatewayConfigured : Bool -- AICR_GATEWAY_URL and AICR_API_KEY both set
  gatewayOutcome : BackendOutcome
  ollamaAvailable : Bool -- the isOllamaAvailable probe
  ollamaOutcome : BackendOutcome
  openaiConfigured : Bool -- OPENAI_API_KEY set
  openaiOutcome : BackendOutcome
deriving DecidableEq, Repr

/-- Errors `generateLLMResponse` can throw: the explicit
`'No LLM provider available'` error, or an exception propagating out of
the final OpenAI call (which has no surrounding try/catch). -/
inductive GenError where
  | noProviderAvailable
  | openaiUpstream
deriving DecidableEq, Repr

/-- A successful generation result: the answer and the provider that
produced it. -/
structure GenSuccess where
  answer : String
  provider : Provider
deriving DecidableEq, Repr

/-- `generateLLMResponse` (askspm.service.ts, lines 123–246), returning
both the result and the ordered trace of backends actually called.
Control flow of the source: try the gateway if configured (failure
caught, falls through); then Ollama if the availability probe succeeds
(failure caught, falls through); then throw if no OpenAI key, else call
OpenAI (whose failure propagates uncaught). -/
def generateLLMResponse (env : GenEnv) :
    Except GenError GenSuccess × List Provider :=
  let openaiStep : Except GenError GenSuccess × List Provider :=
    if env.openaiConfigured then
      match env.openaiOutcome with
      | .ok a => (.ok ⟨a, .openai⟩, [.openai])
      | .fail => (.error .openaiUpstream, [.openai])
    else (.error .noProviderAvailable, [])
  let ollamaStep : Except GenError GenSuccess × List Provider :=
    if env.ollamaAvailable then
      match env.ollamaOutcome with
      | .ok a => (.ok ⟨a, .ollama⟩, [.ollama])
      | .fail => (openaiStep.1, .ollama :: openaiStep.2)
    else openaiStep
  if env.gatewayConfigured then
    match env.gatewayOutcome with
    | .ok a => (.ok ⟨a, .gateway⟩, [.gateway])
    | .fail => (ollamaStep.1, .gateway :: ollamaStep.2)
  else ollamaStep

/-! ## Streaming route (stream route, part_008): SSE event sequences -/

/-- The server-sent event kinds emitted by the streaming route. -/
inductive SSEEvent where
  | metadata
  | content (text : String)
  | done
  | error
deriving DecidableEq, Repr

/-- Whether an event is terminal (`done` or `error`). -/
def SSEEvent.isTerminal : SSEEvent → Bool
  | .done => true
  | .error => true
  | _ => false

/-- The cache-hit path chunks the cached answer's words into groups of
three: `words.slice(index, index + 3).join(' ') + ' '`. -/
def chunkWords : List String → List String
  | [] => []
  | w :: ws =>
    (String.intercalate " " (w :: ws.take 2) ++ " ") :: chunkWords (ws.drop 2)
termination_by l => l.length
decreasing_by
  simp only [List.length_drop, List.length_cons]
  omega

/-- Events emitted on the cache-hit fast path (stream route, lines
63–116): one `metadata`, the chunked cached answer as `content` events,
then `done` and close. -/
def cacheHitEvents (answerText : String) : List SSEEvent :=
  SSEEvent.metadata ::
    (chunkWords (answerText.splitOn " ")).map SSEEvent.content
    ++ [SSEEvent.done]

/-- One observed outcome of `reader.read()` on the cache-miss path: a
decoded chunk, carrying the `delta.content` strings parsed out of its
`data:` lines (the route drops falsy, i.e. empty, ones), or a rejection
of the read itself. -/
inductive ReadItem where
  | chunk (deltas : List String)
  | readError
deriving DecidableEq, Repr

/-- The loop body of the cache-miss stream (stream route, lines
239–293): forward non-empty deltas as `content` events; when the reader
is exhausted emit `done`; when a read rejects, the exception skips the
`done` emission and the `finally` block closes the channel with no
terminal event. -/
def cacheMissTail : List ReadItem → List SSEEvent
  | [] => [SSEEvent.done]
  | .chunk deltas :: rest =>
    (deltas.filter (fun d => d ≠ "")).map SSEEvent.content ++ cacheMissTail rest
  | .readError :: _ => []

/-- Events emitted on the cache-miss path (stream route, lines 219–295):
`metadata` first, then the loop of `cacheMissTail`. -/
def cacheMissEvents (items : List ReadItem) : List SSEEvent :=
  SSEEvent.metadata :: cacheMissTail items

/-- The non-empty deltas read before the first read failure. -/
def deltasBeforeError : List ReadItem → List String
  | [] => []
  | .chunk deltas :: rest =>
    deltas.filter (fun d => d ≠ "") ++ deltasBeforeError rest
  | .readError :: _ => []

/-- Whether the reader fails before being exhausted. -/
def hasReadError : List ReadItem → Bool
  | [] => false
  | .chunk _ :: rest => hasReadError rest
  | .readError :: _ => true

/-! ## Feedback route (part_007, `POST`, lines 177–251) -/

/-- The JSON body of a feedback POST; absent fields are `none`. -/
structure FeedbackBody where
  queryId : Option String := none
  feedbackType : Option String := none
  answerLibraryId : Option String := none
  feedbackText : Option String := none
  email : Option String := none

/-- JavaScript truthiness of an optional string (`!body.queryId`):
present and non-empty. -/
def truthy : Option String → Bool
  | none => false
  | some s => s ≠ ""

/-- One row of `query_feedback`. -/
structure FeedbackRecord where
  id : ℕ
  queryId : String
  answerLibraryId : Option String
  feedbackType : String
  feedbackText : Option String
  email : Option String
  ipAddress : String

/-- The store the feedback route reads and writes: the feedback rows and
the answer-library records keyed by id. -/
structure FeedbackState where
  feedbacks : List FeedbackRecord
  library : List (String × AnswerRecord)
  nextId : ℕ

/-- The route's response. -/
inductive FeedbackResponse where
  | badRequest -- 400
  | conflict -- 409
  | success (feedbackId : ℕ) -- 200
deriving DecidableEq, Repr

/-- HTTP status of a `FeedbackResponse`. -/
def FeedbackResponse.status : FeedbackResponse → ℕ
  | .badRequest => 400
  | .conflict => 409
  | .success _ => 200

/-- `feedbackType` must be one of the two literals. -/
def validFeedbackType (ft : String) : Bool :=
  ft = "thumbs_up" || ft = "thumbs_down"

/-- Apply `updateAnswerConfidence` to the library entry with the given
id, if present (the route catches and swallows the service's not-found
error). -/
noncomputable def updateLibrary (library : List (String × AnswerRecord))
    (answerId : String) (ft : FeedbackType) : List (String × AnswerRecord) :=
  library.map (fun e => if e.1 = answerId then (e.1, updateAnswerConfidence e.2 ft) else e)

/-- The feedback `POST` handler (part_007, lines 177–251): validate the
body, reject with 409 if this (queryId, ipAddress) pair already has a
feedback row — checked before anything is written — otherwise create
the row and, when an answer-library id is supplied, update that entry's
counters and confidence. -/
noncomputable def feedbackPOST (st : FeedbackState) (body : FeedbackBody)
    (ipAddress : String) : FeedbackResponse × FeedbackState :=
  if ¬ (truthy body.queryId) ∨ ¬ (truthy body.feedbackType) then
    (.badRequest, st)
  else
    let qid := body.queryId.getD ""
    let ft := body.feedbackType.getD ""
    if ¬ validFeedbackType ft then
      (.badRequest, st)
    else if (st.feedbacks.find? (fun fb => fb.queryId = qid && fb.ipAddress = ipAddress)).isSome then
      (.conflict, st)
    else
      let record : FeedbackRecord :=
        { id := st.nextId
        , queryId := qid
        , answerLibraryId := body.answerLibraryId
        , feedbackType := ft
        , feedbackText := body.feedbackText
        , email := body.email
        , ipAddress := ipAddress }
      let ftyped : FeedbackType :=
        if ft = "thumbs_up" then .thumbs_up else .thumbs_down
      let newLibrary :=
        match body.answerLibraryId with
        | some a => if a ≠ "" then updateLibrary st.library a ftyped else st.library
        | none => st.library
      (.success st.nextId,
        { feedbacks := st.feedbacks ++ [record]
        , library := newLibrary
        , nextId := st.nextId + 1 })

/-! ## Auxiliary definitions used by the theorems -/

/-- The z-score used by `calculateConfidence` (`z = 1.96`, 95%
confidence). -/
noncomputable def zConst : ℝ := 196/100

/-- The argument of the square root in `calculateConfidence`, for real
vote count `u` and real total `n`:
`(p * (1 - p) + z * z / (4 * total)) / total` with `p = u / n`. -/
noncomputable def wilsonQ (u n : ℝ) : ℝ :=
  (u / n * (1 - u / n) + zConst * zConst / (4 * n)) / n

/-- The unclamped Wilson lower bound `(center - spread) / denominator`
computed by `calculateConfidence`, for real vote count `u` and total
`n`. -/
noncomputable def wilsonScore (u n : ℝ) : ℝ :=
  (u / n + zConst * zConst / (2 * n) - zConst * Real.sqrt (wilsonQ u n)) /
    (1 + zConst * zConst / n)

/-- Modelled from the spec (§4.5): the ordered list of generation
backends that are configured / reachable in the environment, in the
fixed priority order gateway, then the locally-hosted model, then the
hosted API, each paired with its outcome. -/
def orderedBackends (env : GenEnv) : List (Provider × BackendOutcome) :=
  (if env.gatewayConfigured then [(Provider.gateway, env.gatewayOutcome)] else []) ++
    (if env.ollamaAvailable then [(Provider.ollama, env.ollamaOutcome)] else []) ++
      (if env.openaiConfigured then [(Provider.openai, env.openaiOutcome)] else [])

/-- Modelled from the spec (§4.5): the first backend success in priority
order, if any. -/
def firstSuccess : List (Provider × BackendOutcome) → Option GenSuccess
  | [] => none
  | (p, .ok a) :: _ => some ⟨a, p⟩
  | (_, .fail) :: rest => firstSuccess rest

/-- Modelled from the spec (§4.5): the backends actually called when
trying the list in order — every backend up to and including the first
success, each exactly once. -/
def attemptedSpec : List (Provider × BackendOutcome) → List Provider
  | [] => []
  | (p, .ok _) :: _ => [p]
  | (p, .fail) :: rest => p :: attemptedSpec rest

/-! ## Helper lemmas -/

theorem bestRow_isSome (rows : List LibraryRow) :
    (bestRow rows).isSome ↔ rows ≠ [] := by
  cases rows with
  | nil => simp [bestRow]
  | cons r rest =>
    simp only [ne_eq, reduceCtorEq, not_false_eq_true, iff_true]
    cases h : bestRow rest with
    | none => simp [bestRow, h]
    | some b =>
      simp only [bestRow, h]
      by_cases hc : b.similarity > r.similarity <;> simp [hc]

theorem bestRow_eq_none {rows : List LibraryRow} :
    bestRow rows = none ↔ rows = [] := by
  cases rows with
  | nil => simp [bestRow]
  | cons r rest =>
    simp only [bestRow]
    cases h : bestRow rest with
    | none => simp
    | some b => by_cases hc : b.similarity > r.similarity <;> simp [hc]

theorem bestRow_mem {rows : List LibraryRow} {b : LibraryRow}
    (h : bestRow rows = some b) : b ∈ rows := by
  induction rows generalizing b with
  | nil => simp [bestRow] at h
  | cons r rest ih =>
    simp only [bestRow] at h
    cases hr : bestRow rest with
    | none => rw [hr] at h; simp at h; simp [h]
    | some b' =>
      rw [hr] at h
      by_cases hc : b'.similarity > r.similarity
      · simp [hc] at h
        exact List.mem_cons_of_mem _ (h ▸ ih hr)
      · simp [hc] at h
        simp [h]

theorem bestRow_max {rows : List LibraryRow} {b : LibraryRow}
    (h : bestRow rows = some b) :
    ∀ x ∈ rows, x.similarity ≤ b.similarity := by
  induction rows generalizing b with
  | nil => simp
  | cons r rest ih =>
    intro x hx
    simp only [bestRow] at h
    cases hr : bestRow rest with
    | none =>
      rw [hr] at h
      simp at h
      have hrest : rest = [] := bestRow_eq_none.mp hr
      rcases List.mem_cons.mp hx with hx | hx
      · rw [hx, h]
      · rw [hrest] at hx; simp at hx
    | some b' =>
      rw [hr] at h
      by_cases hc : b'.similarity > r.similarity
      · simp [hc] at h
        rcases List.mem_cons.mp hx with hx | hx
        · rw [hx, ← h]; exact le_of_lt hc
        · rw [← h]; exact ih hr x hx
      · simp [hc] at h
        push_neg at hc
        rcases List.mem_cons.mp hx with hx | hx
        · rw [hx, h]
        · rw [← h]; exact le_trans (ih hr x hx) hc

theorem searchAnswerLibrary_eq (rows : List LibraryRow) (threshold : Option ℚ)
    (config : PartialConfig) :
    searchAnswerLibrary rows threshold config =
      Option.map toLibraryMatch
        (bestRow (rows.filter (passesFilters (mergeConfig config).minConfidence
          (threshold.getD (mergeConfig config).similarityThreshold)))) := rfl

theorem isSome_map_toLibraryMatch (o : Option LibraryRow) :
    (o.map toLibraryMatch).isSome = o.isSome := by
  cases o <;> rfl

theorem searchAnswerLibraryRow_passes {rows : List LibraryRow}
    {threshold : Option ℚ} {config : PartialConfig} {row : LibraryRow}
    (h : searchAnswerLibraryRow rows threshold config = some row) :
    row ∈ rows ∧
      passesFilters (mergeConfig config).minConfidence
        (threshold.getD (mergeConfig config).similarityThreshold) row = true := by
  unfold searchAnswerLibraryRow at h
  have hm := bestRow_mem h
  exact ⟨(List.mem_filter.mp hm).1, (List.mem_filter.mp hm).2⟩

/-! ## Claim theorems -/

/-- C1: for every query vector (modelled by the per-row similarity
values), `searchAnswerLibrary` returns a match if and only if some
answer-library row passes all three filters — active, confidence at
least the configured minimum, similarity at least the threshold — with
both comparisons boundary-inclusive (`≥`); with no overrides the
minimum is `0.5` and the threshold `0.92`. -/
theorem searchAnswerLibrary_hit_iff (rows : List LibraryRow)
    (threshold : Option ℚ) (config : PartialConfig) :
    ((searchAnswerLibrary rows threshold config).isSome ↔
      ∃ row ∈ rows, row.isActive = true
        ∧ (mergeConfig config).minConfidence ≤ row.confidenceScore
        ∧ threshold.getD (mergeConfig config).similarityThreshold ≤ row.similarity)
    ∧ ((searchAnswerLibrary rows).isSome ↔
      ∃ row ∈ rows, row.isActive = true
        ∧ 1/2 ≤ row.confidenceScore
        ∧ 92/100 ≤ row.similarity) := by
  have key : ∀ (t : Option ℚ) (c : PartialConfig),
      ((searchAnswerLibrary rows t c).isSome ↔
        ∃ row ∈ rows, row.isActive = true
          ∧ (mergeConfig c).minConfidence ≤ row.confidenceScore
          ∧ t.getD (mergeConfig c).similarityThreshold ≤ row.similarity) := by
    intro t c
    rw [searchAnswerLibrary_eq, isSome_map_toLibraryMatch]
    rw [bestRow_isSome]
    rw [ne_eq, List.filter_eq_nil_iff]
    push_neg
    constructor
    · rintro ⟨row, hmem, hpass⟩
      refine ⟨row, hmem, ?_⟩
      have := by simpa [passesFilters, Bool.and_eq_true, decide_eq_true_eq] using hpass
      tauto
    · rintro ⟨row, hmem, hpass⟩
      refine ⟨row, hmem, ?_⟩
      simp only [passesFilters, Bool.and_eq_true, decide_eq_true_eq]
      tauto
  refine ⟨key threshold config, ?_⟩
  have h := key none {}
  simpa [mergeConfig, DEFAULT_CONFIG] using h

/-- C4: `normalizeEmbedding v D` always has length exactly `D`; a longer
vector is truncated to its first `D` components, a shorter one is kept
as a prefix and right-padded with zeros, and a vector of length `D`
passes through unchanged. -/
theorem normalizeEmbedding_spec (v : List ℚ) (D : ℕ) :
    (normalizeEmbedding v D).length = D
    ∧ (D < v.length → normalizeEmbedding v D = v.take D)
    ∧ (v.length < D → (normalizeEmbedding v D).take v.length = v
        ∧ (normalizeEmbedding v D).drop v.length = List.replicate (D - v.length) 0)
    ∧ (v.length = D → normalizeEmbedding v D = v) := by
  refine ⟨?_, ?_, ?_, ?_⟩
  · unfold normalizeEmbedding
    split_ifs with h1 h2
    · exact h1
    · rw [List.length_take]; omega
    · rw [List.length_append, List.length_replicate]; omega
  · intro h
    unfold normalizeEmbedding
    rw [if_neg (by omega), if_pos h]
  · intro h
    unfold normalizeEmbedding
    rw [if_neg (by omega), if_neg (by omega)]
    exact ⟨List.take_left v _, List.drop_left v _⟩
  · intro h
    unfold normalizeEmbedding
    rw [if_pos h]

/-- Witness for C4 at concrete inputs: truncation at `D = 2`, padding at
`D = 3`, pass-through at `D = 2`. -/
theorem normalizeEmbedding_spec_witness :
    normalizeEmbedding [1, 2, 3] 2 = [1, 2]
    ∧ (normalizeEmbedding [5] 3).take 1 = [5]
    ∧ (normalizeEmbedding [5] 3).drop 1 = List.replicate 2 0
    ∧ normalizeEmbedding [7, 8] 2 = [7, 8] :=
  ⟨(normalizeEmbedding_spec [1, 2, 3] 2).2.1 (by norm_num),
   ((normalizeEmbedding_spec [5] 3).2.2.1 (by norm_num)).1,
   ((normalizeEmbedding_spec [5] 3).2.2.1 (by norm_num)).2,
   (normalizeEmbedding_spec [7, 8] 2).2.2.2 rfl⟩

/-- C5, counterexample to the claimed tie-break: two rows pass the
filters with equal similarity `0.95`; the lookup returns the first row
of the table even though the second has the more recent `last_used_at`
(the SQL orders only by distance and names no tie-break column). -/
theorem searchAnswerLibrary_tie_counterexample :
    (searchAnswerLibrary
        [⟨1, "q1", "a1", 1, 95/100, 0, 0, true⟩,
         ⟨2, "q2", "a2", 1, 95/100, 0, 100, true⟩]
      = some (toLibraryMatch ⟨1, "q1", "a1", 1, 95/100, 0, 0, true⟩))
    ∧ (0 : ℤ) < 100
    ∧ passesFilters (1/2) (92/100) ⟨1, "q1", "a1", 1, 95/100, 0, 0, true⟩ = true
    ∧ passesFilters (1/2) (92/100) ⟨2, "q2", "a2", 1, 95/100, 0, 100, true⟩ = true := by
  refine ⟨?_, by norm_num, by norm_num [passesFilters], by norm_num [passesFilters]⟩
  rw [searchAnswerLibrary_eq]
  norm_num [mergeConfig, DEFAULT_CONFIG, passesFilters, List.filter, bestRow]

/-- C5, amended: among the rows passing the three filters the lookup
selects one with the (weakly) highest similarity; on similarity ties the
row returned is determined by the table's row order (the query orders
only by the vector distance), not by `last_used_at`. -/
theorem searchAnswerLibrary_max_similarity (rows : List LibraryRow)
    (threshold : Option ℚ) (config : PartialConfig) (m : LibraryMatch)
    (h : searchAnswerLibrary rows threshold config = some m) :
    ∃ row ∈ rows,
      m = toLibraryMatch row
      ∧ passesFilters (mergeConfig config).minConfidence
          (threshold.getD (mergeConfig config).similarityThreshold) row = true
      ∧ ∀ r ∈ rows,
          passesFilters (mergeConfig config).minConfidence
            (threshold.getD (mergeConfig config).similarityThreshold) r = true →
          r.similarity ≤ row.similarity := by
  unfold searchAnswerLibrary at h
  rcases Option.map_eq_some'.mp h with ⟨row, hrow, hm⟩
  have hp := searchAnswerLibraryRow_passes hrow
  refine ⟨row, hp.1, hm.symm, hp.2, ?_⟩
  intro r hr hpass
  unfold searchAnswerLibraryRow at hrow
  exact bestRow_max hrow r (List.mem_filter.mpr ⟨hr, hpass⟩)

/-- Witness for C5 (amended) at a concrete input: of two passing rows
with similarities `0.93` and `0.96` the lookup returns the more similar
one, which the theorem then certifies as maximal. -/
theorem searchAnswerLibrary_max_similarity_witness :
    ∃ row ∈ [(⟨1, "q1", "a1", 1, 93/100, 0, 0, true⟩ : LibraryRow),
             ⟨2, "q2", "a2", 1, 96/100, 0, 0, true⟩],
      toLibraryMatch ⟨2, "q2", "a2", 1, 96/100, 0, 0, true⟩ = toLibraryMatch row
      ∧ passesFilters (mergeConfig {}).minConfidence
          ((none : Option ℚ).getD (mergeConfig {}).similarityThreshold) row = true
      ∧ ∀ r ∈ [(⟨1, "q1", "a1", 1, 93/100, 0, 0, true⟩ : LibraryRow),
               ⟨2, "q2", "a2", 1, 96/100, 0, 0, true⟩],
          passesFilters (mergeConfig {}).minConfidence
            ((none : Option ℚ).getD (mergeConfig {}).similarityThreshold) r = true →
          r.similarity ≤ row.similarity :=
  searchAnswerLibrary_max_similarity _ none {} _ (by
    rw [searchAnswerLibrary_eq]
    norm_num [mergeConfig, DEFAULT_CONFIG, passesFilters, List.filter, bestRow])

/-- C3: after `updateAnswerConfidence` recomputes the counters and the
confidence, a new confidence strictly below `0.3` together with at least
`5` total votes forces `isActive := false`; and the lookup never selects
an inactive row (whatever its similarity, including `1.0`), so a
deactivated entry is excluded from every subsequent
`searchAnswerLibrary` lookup. -/
theorem deactivation_excludes_from_lookup :
    (∀ (a : AnswerRecord) (f : FeedbackType),
      (updateAnswerConfidence a f).confidenceScore < 3/10 →
      5 ≤ (updateAnswerConfidence a f).thumbsUpCount
        + (updateAnswerConfidence a f).thumbsDownCount →
      (updateAnswerConfidence a f).isActive = false)
    ∧ (∀ (rows : List LibraryRow) (threshold : Option ℚ)
        (config : PartialConfig) (row : LibraryRow),
      row.isActive = false →
      searchAnswerLibraryRow rows threshold config ≠ some row) := by
  constructor
  · intro a f hconf htotal
    simp only [updateAnswerConfidence] at hconf htotal ⊢
    rw [if_pos]
    rw [Bool.and_eq_true, decide_eq_true_eq, decide_eq_true_eq]
    exact ⟨hconf, htotal⟩
  · intro rows threshold config row hinactive hsel
    have hp := (searchAnswerLibraryRow_passes hsel).2
    simp only [passesFilters, Bool.and_eq_true, decide_eq_true_eq] at hp
    rw [hinactive] at hp
    exact Bool.false_ne_true hp.1.1

/-- C10: `updateAnswerConfidence` never reactivates an entry — each call
either keeps the `active` flag or clears it — and consequently an
entry that is inactive stays inactive across any further sequence of
feedback events, however positive. -/
theorem updateAnswerConfidence_never_reactivates :
    (∀ (a : AnswerRecord) (f : FeedbackType),
      (updateAnswerConfidence a f).isActive = a.isActive
        ∨ (updateAnswerConfidence a f).isActive = false)
    ∧ (∀ (fs : List FeedbackType) (a : AnswerRecord), a.isActive = false →
      (fs.foldl updateAnswerConfidence a).isActive = false) := by
  have step : ∀ (a : AnswerRecord) (f : FeedbackType),
      (updateAnswerConfidence a f).isActive = a.isActive
        ∨ (updateAnswerConfidence a f).isActive = false := by
    intro a f
    simp only [updateAnswerConfidence]
    split_ifs <;> simp
  refine ⟨step, ?_⟩
  intro fs
  induction fs with
  | nil => intro a h; simpa using h
  | cons f fs ih =>
    intro a h
    rw [List.foldl_cons]
    apply ih
    rcases step a f with hs | hs
    · rw [hs, h]
    · exact hs

/-- Witness for C10 at a concrete input: an already-deactivated entry
stays inactive across three further thumbs-up events, even though they
would raise its recomputed confidence. -/
theorem updateAnswerConfidence_never_reactivates_witness :
    (([FeedbackType.thumbs_up, FeedbackType.thumbs_up,
        FeedbackType.thumbs_up].foldl updateAnswerConfidence
      ⟨0, 5, 0, false⟩).isActive = false) :=
  updateAnswerConfidence_never_reactivates.2 _ _ rfl

/-- C6: `generateLLMResponse` tries gateway, then Ollama, then OpenAI,
in that fixed order: the backends called are exactly those of the
configured priority list up to and including the first success (each at
most once — never a retry), the returned answer is exactly the first
backend success, and when every configured backend fails, or none is
configured, the call ends in an error rather than any empty-answer
result. -/
theorem generateLLMResponse_priority (env : GenEnv) :
    (generateLLMResponse env).2 = attemptedSpec (orderedBackends env)
    ∧ (∀ s : GenSuccess,
        (generateLLMResponse env).1 = .ok s ↔
          firstSuccess (orderedBackends env) = some s)
    ∧ (firstSuccess (orderedBackends env) = none →
        ∃ e, (generateLLMResponse env).1 = .error e)
    ∧ (generateLLMResponse env).2.Sublist
        [Provider.gateway, Provider.ollama, Provider.openai] := by
  obtain ⟨gc, go, oa, oo, oc, oo2⟩ := env
  cases gc <;> cases oa <;> cases oc <;> cases go <;> cases oo <;> cases oo2 <;>
    refine ⟨rfl, fun s => ?_, fun h => ?_, ?_⟩ <;>
    simp_all [generateLLMResponse, orderedBackends, firstSuccess, attemptedSpec,
      GenSuccess.mk.injEq, List.Sublist]

/-- Witness for C6 at a concrete input: with no backend configured the
priority list is empty, `firstSuccess` is `none`, and the call returns
an error. -/
theorem generateLLMResponse_priority_witness :
    ∃ e, (generateLLMResponse
      ⟨false, .fail, false, .fail, false, .fail⟩).1 = .error e :=
  (generateLLMResponse_priority _).2.2.1 rfl

/-- C8, counterexample to the claimed terminal `error` event: when the
first backend read rejects, the cache-miss stream emits only the
`metadata` event and the channel closes with no terminal event at all
(the code has no `error` event emission). -/
theorem streamError_no_terminal_event :
    cacheMissEvents [ReadItem.readError] = [SSEEvent.metadata]
    ∧ (cacheMissEvents [ReadItem.readError]).filter SSEEvent.isTerminal = [] := by
  constructor <;> rfl

/-- C8, amended: a cache-hit stream is exactly one `metadata` event,
then `content` events, then a single terminal `done`; a cache-miss
stream is `metadata`, then the `content` events read so far, then
`done` when the backend stream completes — but when the stream fails
mid-way the channel closes after those events without any terminal
event (no `error` event is emitted). -/
theorem streamEvents_shape :
    (∀ answerText : String, ∃ chunks : List String,
      cacheHitEvents answerText =
        SSEEvent.metadata :: chunks.map SSEEvent.content ++ [SSEEvent.done])
    ∧ (∀ items : List ReadItem,
      cacheMissEvents items =
        SSEEvent.metadata :: ((deltasBeforeError items).map SSEEvent.content
          ++ if hasReadError items then [] else [SSEEvent.done])) := by
  constructor
  · intro answerText
    exact ⟨chunkWords (answerText.splitOn " "), rfl⟩
  · intro items
    unfold cacheMissEvents
    congr 1
    induction items with
    | nil => rfl
    | cons item rest ih =>
      cases item with
      | chunk deltas =>
        simp only [cacheMissTail, deltasBeforeError, hasReadError, ih,
          List.map_append, List.append_assoc]
      | readError => rfl

/-- C7: two feedback submissions carrying the same `queryId` from the
same requester IP: the first succeeds and appends a feedback record for
that (queryId, IP) pair, the second is answered with a 409 conflict and
leaves the store — feedback rows and every library entry's counters
and confidence — exactly as the first call left it. -/
theorem feedbackPOST_duplicate_conflict (st : FeedbackState)
    (body : FeedbackBody) (ip : String)
    (hq : truthy body.queryId = true)
    (hf : truthy body.feedbackType = true)
    (hvalid : validFeedbackType (body.feedbackType.getD "") = true)
    (hfresh : st.feedbacks.find?
      (fun fb => fb.queryId = body.queryId.getD "" && fb.ipAddress = ip) = none) :
    (∃ fid, (feedbackPOST st body ip).1 = .success fid)
    ∧ (∃ rec ∈ (feedbackPOST st body ip).2.feedbacks,
        rec.queryId = body.queryId.getD "" ∧ rec.ipAddress = ip)
    ∧ (feedbackPOST (feedbackPOST st body ip).2 body ip).1 = .conflict
    ∧ (feedbackPOST (feedbackPOST st body ip).2 body ip).2
        = (feedbackPOST st body ip).2 := by
  have hq' : ¬ (¬ truthy body.queryId = true ∨ ¬ truthy body.feedbackType = true) := by
    simp [hq, hf]
  have hfirst : feedbackPOST st body ip =
      (.success st.nextId,
        { feedbacks := st.feedbacks ++
            [{ id := st.nextId
             , queryId := body.queryId.getD ""
             , answerLibraryId := body.answerLibraryId
             , feedbackType := body.feedbackType.getD ""
             , feedbackText := body.feedbackText
             , email := body.email
             , ipAddress := ip }]
        , library :=
            match body.answerLibraryId with
            | some a => if a ≠ "" then
                updateLibrary st.library a
                  (if body.feedbackType.getD "" = "thumbs_up" then .thumbs_up
                   else .thumbs_down)
              else st.library
            | none => st.library
        , nextId := st.nextId + 1 }) := by
    unfold feedbackPOST
    rw [if_neg hq', if_neg (by simp [hvalid]), if_neg (by simp [hfresh])]
  have hdup : ((feedbackPOST st body ip).2.feedbacks.find?
      (fun fb => fb.queryId = body.queryId.getD "" && fb.ipAddress = ip)).isSome := by
    rw [hfirst]
    simp only [List.find?_append, hfresh, Option.none_or]
    simp [List.find?]
  refine ⟨⟨st.nextId, by rw [hfirst]⟩, ?_, ?_, ?_⟩
  · rw [hfirst]
    exact ⟨_, List.mem_append_right _ (List.mem_singleton_self _), rfl, rfl⟩
  · generalize hst1 : (feedbackPOST st body ip).2 = st1 at hdup ⊢
    unfold feedbackPOST
    rw [if_neg hq', if_neg (by simp [hvalid]), if_pos hdup]
  · generalize hst1 : (feedbackPOST st body ip).2 = st1 at hdup ⊢
    unfold feedbackPOST
    rw [if_neg hq', if_neg (by simp [hvalid]), if_pos hdup]

/-- Witness for C7 at a concrete input: an empty store, a valid body
with `queryId = "q1"` and `feedbackType = "thumbs_up"`, submitted twice
from IP `203.0.113.7`. -/
theorem feedbackPOST_duplicate_conflict_witness :
    (∃ fid, (feedbackPOST ⟨[], [], 0⟩
        ⟨some "q1", some "thumbs_up", none, none, none⟩ "203.0.113.7").1
      = .success fid)
    ∧ (feedbackPOST (feedbackPOST ⟨[], [], 0⟩
          ⟨some "q1", some "thumbs_up", none, none, none⟩ "203.0.113.7").2
        ⟨some "q1", some "thumbs_up", none, none, none⟩ "203.0.113.7").1
      = .conflict := by
  have h := feedbackPOST_duplicate_conflict ⟨[], [], 0⟩
    ⟨some "q1", some "thumbs_up", none, none, none⟩ "203.0.113.7"
    (by rfl) (by rfl) (by rfl) (by rfl)
  exact ⟨h.1, h.2.2.1⟩

/-! ## Wilson score: analytic lemmas -/

theorem calculateConfidence_pos (u d : ℕ) (h : 0 < u + d) :
    calculateConfidence u d = max 0 (min 1 (wilsonScore u ((u : ℝ) + d))) := by
  have hne : ((u : ℝ) + (d : ℝ)) ≠ 0 := by
    have : (0 : ℝ) < (u : ℝ) + (d : ℝ) := by exact_mod_cast h
    linarith
  simp only [calculateConfidence, wilsonScore, wilsonQ, zConst]
  rw [if_neg hne]

theorem wilsonQ_nonneg (u n : ℝ) (hn : 0 < n) (hu0 : 0 ≤ u) (hun : u ≤ n) :
    0 ≤ wilsonQ u n := by
  unfold wilsonQ zConst
  have hp0 : 0 ≤ u / n := div_nonneg hu0 hn.le
  have hp1 : u / n ≤ 1 := (div_le_one hn).mpr hun
  have h1 : 0 ≤ u / n * (1 - u / n) := mul_nonneg hp0 (by linarith)
  have h2 : 0 ≤ (196:ℝ)/100 * (196/100) / (4 * n) := by positivity
  exact div_nonneg (by linarith) hn.le

theorem wilson_root (u n : ℝ) (hn : 0 < n) (hu0 : 0 ≤ u) (hun : u ≤ n) :
    (u - n * wilsonScore u n)^2
      = n * (zConst * zConst) * wilsonScore u n * (1 - wilsonScore u n) := by
  have hq0 := wilsonQ_nonneg u n hn hu0 hun
  set S := Real.sqrt (wilsonQ u n) with hSdef
  have hS2 : S^2 = wilsonQ u n := Real.sq_sqrt hq0
  have hDpos : (0:ℝ) < 1 + zConst * zConst / n := by unfold zConst; positivity
  have hw : wilsonScore u n * (1 + zConst * zConst / n)
      = u / n + zConst * zConst / (2 * n) - zConst * S := by
    unfold wilsonScore
    rw [← hSdef, div_mul_cancel₀ _ hDpos.ne']
  set w := wilsonScore u n
  have hn' : n ≠ 0 := hn.ne'
  have hA : S^2 * (4 * n^3) = 4*u*(n-u) + (zConst*zConst)*n := by
    rw [hS2]
    unfold wilsonQ zConst
    field_simp
    ring
  have hB : w * (2*n + 2*(zConst*zConst)) = 2*u + zConst*zConst - 2*n*zConst*S := by
    have h2 : (w * (1 + zConst*zConst/n)) * (2*n)
        = (u/n + zConst*zConst/(2*n) - zConst*S) * (2*n) := by rw [hw]
    calc w * (2*n + 2*(zConst*zConst))
        = (w * (1 + zConst*zConst/n)) * (2*n) := by field_simp; ring
      _ = (u/n + zConst*zConst/(2*n) - zConst*S) * (2*n) := h2
      _ = 2*u + zConst*zConst - 2*n*zConst*S := by field_simp; ring
  have hC : n * (2*u + zConst*zConst - w*(2*n+2*(zConst*zConst)))^2
      = (zConst*zConst) * (4*u*(n-u) + (zConst*zConst)*n) := by
    have e1 : 2*u + zConst*zConst - w*(2*n+2*(zConst*zConst)) = 2*n*zConst*S := by
      linarith [hB]
    rw [e1]
    calc n * (2*n*zConst*S)^2 = (zConst*zConst) * (S^2 * (4*n^3)) := by ring
      _ = (zConst*zConst) * (4*u*(n-u) + (zConst*zConst)*n) := by rw [hA]
  have hne2 : (4*(n + zConst*zConst)) ≠ 0 := by unfold zConst; positivity
  apply mul_left_cancel₀ hne2
  linear_combination hC

theorem wilsonScore_nonneg (u n : ℝ) (hn : 0 < n) (hu0 : 0 ≤ u) (hun : u ≤ n) :
    0 ≤ wilsonScore u n := by
  have hq0 := wilsonQ_nonneg u n hn hu0 hun
  set S := Real.sqrt (wilsonQ u n) with hSdef
  have hS2 : S^2 = wilsonQ u n := Real.sq_sqrt hq0
  have hS0 : 0 ≤ S := Real.sqrt_nonneg _
  have hDpos : (0:ℝ) < 1 + zConst * zConst / n := by unfold zConst; positivity
  have hC0 : 0 ≤ u / n + zConst * zConst / (2 * n) := by
    have := div_nonneg hu0 hn.le
    unfold zConst
    positivity
  have hkey : (zConst * S)^2 ≤ (u / n + zConst * zConst / (2 * n))^2 := by
    have hdiff : (u / n + zConst * zConst / (2 * n))^2 - zConst^2 * wilsonQ u n
        = (u/n)^2 * (1 + zConst * zConst / n) := by
      unfold wilsonQ zConst
      field_simp
      ring
    have h1 : (zConst * S)^2 = zConst^2 * wilsonQ u n := by rw [← hS2]; ring
    nlinarith [sq_nonneg (u/n), hDpos]
  have hzS_le : zConst * S ≤ u / n + zConst * zConst / (2 * n) := by
    have hzS0 : 0 ≤ zConst * S := by
      unfold zConst
      positivity
    nlinarith [hkey, hC0, hzS0]
  unfold wilsonScore
  rw [← hSdef]
  apply div_nonneg _ hDpos.le
  linarith

theorem wilsonScore_le_p (u n : ℝ) (hn : 0 < n) (hu0 : 0 ≤ u) (hun : u ≤ n) :
    wilsonScore u n ≤ u / n := by
  have hq0 := wilsonQ_nonneg u n hn hu0 hun
  set S := Real.sqrt (wilsonQ u n) with hSdef
  have hS2 : S^2 = wilsonQ u n := Real.sq_sqrt hq0
  have hS0 : 0 ≤ S := Real.sqrt_nonneg _
  have hDpos : (0:ℝ) < 1 + zConst * zConst / n := by unfold zConst; positivity
  have hp0 : 0 ≤ u / n := div_nonneg hu0 hn.le
  have hp1 : u / n ≤ 1 := (div_le_one hn).mpr hun
  have hzS_ge : u / n + zConst * zConst / (2 * n)
      - u / n * (1 + zConst * zConst / n) ≤ zConst * S := by
    by_cases hc : u / n + zConst * zConst / (2 * n)
        - u / n * (1 + zConst * zConst / n) ≤ 0
    · have hzS0 : 0 ≤ zConst * S := by unfold zConst; positivity
      linarith
    · push_neg at hc
      have hR2 : (u / n + zConst * zConst / (2 * n)
          - u / n * (1 + zConst * zConst / n))^2 ≤ (zConst * S)^2 := by
        have h1 : (zConst * S)^2 = zConst^2 * wilsonQ u n := by rw [← hS2]; ring
        have hdiff : zConst^2 * wilsonQ u n
            - (u / n + zConst * zConst / (2 * n)
                - u / n * (1 + zConst * zConst / n))^2
            = zConst * zConst * (u/n) * (1 - u/n) * (n + zConst * zConst) / (n * n) := by
          unfold wilsonQ zConst
          field_simp
          ring
        have hpos : 0 ≤ zConst * zConst * (u/n) * (1 - u/n)
            * (n + zConst * zConst) / (n * n) := by
          have h2 : 0 ≤ (u/n) * (1 - u/n) := mul_nonneg hp0 (by linarith)
          have h3 : (0:ℝ) ≤ n + zConst * zConst := by unfold zConst; positivity
          have h4 : (0:ℝ) ≤ zConst * zConst := by unfold zConst; positivity
          have h5 : (0:ℝ) ≤ n * n := by positivity
          have hA : 0 ≤ zConst * zConst * ((u/n) * (1 - u/n)) * (n + zConst * zConst) :=
            mul_nonneg (mul_nonneg h4 h2) h3
          have hE : zConst * zConst * (u/n) * (1 - u/n) * (n + zConst * zConst)
              = zConst * zConst * ((u/n) * (1 - u/n)) * (n + zConst * zConst) := by ring
          rw [hE]
          exact div_nonneg hA h5
        nlinarith
      have hzS0 : 0 ≤ zConst * S := by unfold zConst; positivity
      nlinarith [hR2, hc, hzS0]
  unfold wilsonScore
  rw [← hSdef]
  rw [div_le_iff₀ hDpos]
  linarith

theorem wilsonScore_lt_one (u n : ℝ) (hn : 0 < n) (hu0 : 0 ≤ u) (hun : u ≤ n) :
    wilsonScore u n < 1 := by
  set S := Real.sqrt (wilsonQ u n) with hSdef
  have hS0 : 0 ≤ S := Real.sqrt_nonneg _
  have hDpos : (0:ℝ) < 1 + zConst * zConst / n := by unfold zConst; positivity
  have hp1 : u / n ≤ 1 := (div_le_one hn).mpr hun
  have hzS0 : 0 ≤ zConst * S := by unfold zConst; positivity
  unfold wilsonScore
  rw [← hSdef]
  rw [div_lt_one hDpos]
  have : zConst * zConst / (2 * n) < zConst * zConst / n := by
    unfold zConst
    rw [div_lt_div_iff₀ (by positivity) (by positivity)]
    nlinarith
  linarith

theorem wilson_T_nonneg (u n : ℝ) (hn : 0 < n) (hu0 : 0 ≤ u) (hun : u ≤ n) :
    0 ≤ 2 * (u - n * wilsonScore u n)
      + zConst * zConst * (1 - wilsonScore u n) - wilsonScore u n := by
  set w := wilsonScore u n with hwdef
  have hroot := wilson_root u n hn hu0 hun
  rw [← hwdef] at hroot
  have hw0 : 0 ≤ w := wilsonScore_nonneg u n hn hu0 hun
  have hw1 : w < 1 := wilsonScore_lt_one u n hn hu0 hun
  have hwp : w ≤ u / n := wilsonScore_le_p u n hn hu0 hun
  have hs0 : 0 ≤ u - n * w := by
    have : n * w ≤ u := by
      have := mul_le_mul_of_nonneg_left hwp hn.le
      rwa [mul_div_cancel₀ _ hn.ne'] at this
    linarith
  have hsle : u - n * w ≤ n * (1 - w) := by nlinarith
  have hZ0 : (0:ℝ) < zConst * zConst := by unfold zConst; norm_num
  have hZ1 : (1:ℝ) ≤ zConst * zConst := by unfold zConst; norm_num
  rcases eq_or_lt_of_le hs0 with he | hpos
  · have hzero : n * (zConst * zConst) * w * (1 - w) = 0 := by
      rw [← hroot, ← he]; ring
    have hw00 : w = 0 := by
      rcases mul_eq_zero.mp hzero with h | h
      · rcases mul_eq_zero.mp h with h' | h'
        · rcases mul_eq_zero.mp h' with h'' | h''
          · exact absurd h'' hn.ne'
          · exact absurd h'' hZ0.ne'
        · exact h'
      · linarith
    rw [hw00]
    simp
    nlinarith [he]
  · have hstep : zConst * zConst * w * (u - n * w) ≤ (u - n * w) * (u - n * w) := by
      calc zConst * zConst * w * (u - n * w)
          ≤ zConst * zConst * w * (n * (1 - w)) := by
            apply mul_le_mul_of_nonneg_left hsle
            positivity
        _ = n * (zConst * zConst) * w * (1 - w) := by ring
        _ = (u - n * w)^2 := hroot.symm
        _ = (u - n * w) * (u - n * w) := sq (u - n*w) ▸ by ring
    have hZw : zConst * zConst * w ≤ u - n * w :=
      le_of_mul_le_mul_right hstep hpos
    nlinarith [hZw, hw0, hZ1]

theorem wilson_le_of_quad (u n x : ℝ) (hn : 0 < n) (hu0 : 0 ≤ u) (hun : u ≤ n)
    (hx : (u - n * x)^2 - n * (zConst * zConst) * x * (1 - x) ≤ 0) :
    wilsonScore u n ≤ x := by
  have hq0 := wilsonQ_nonneg u n hn hu0 hun
  set S := Real.sqrt (wilsonQ u n) with hSdef
  have hS2 : S^2 = wilsonQ u n := Real.sq_sqrt hq0
  have hS0 : 0 ≤ S := Real.sqrt_nonneg _
  have hDpos : (0:ℝ) < 1 + zConst * zConst / n := by unfold zConst; positivity
  have hApos : (0:ℝ) < n^2 + n * (zConst * zConst) := by unfold zConst; positivity
  have hIdent : (1 + zConst * zConst / n)^2 * ((u - n * x)^2
        - n * (zConst * zConst) * x * (1 - x))
      = (n^2 + n * (zConst * zConst))
        * ((x * (1 + zConst * zConst / n)
            - (u / n + zConst * zConst / (2 * n)))^2
          - zConst^2 * wilsonQ u n) := by
    unfold wilsonQ zConst
    field_simp
    ring
  have hquad : (x * (1 + zConst * zConst / n)
      - (u / n + zConst * zConst / (2 * n)))^2 - zConst^2 * wilsonQ u n ≤ 0 := by
    nlinarith [hIdent, hx, hApos, sq_nonneg (1 + zConst * zConst / n)]
  have hzq : zConst^2 * wilsonQ u n = (zConst * S)^2 := by rw [← hS2]; ring
  have hzS0 : 0 ≤ zConst * S := by unfold zConst; positivity
  have hle : u / n + zConst * zConst / (2 * n)
      - x * (1 + zConst * zConst / n) ≤ zConst * S := by
    nlinarith [hquad, hzq, hzS0,
      sq_nonneg (x * (1 + zConst * zConst / n)
        - (u / n + zConst * zConst / (2 * n)) + zConst * S)]
  unfold wilsonScore
  rw [← hSdef]
  rw [div_le_iff₀ hDpos]
  linarith

theorem wilsonScore_succ_le (u n : ℝ) (hn : 0 < n) (hu0 : 0 ≤ u) (hun : u ≤ n) :
    wilsonScore u (n + 1) ≤ wilsonScore u n := by
  set w := wilsonScore u n with hwdef
  have hroot := wilson_root u n hn hu0 hun
  rw [← hwdef] at hroot
  have hT := wilson_T_nonneg u n hn hu0 hun
  rw [← hwdef] at hT
  have hw0 : 0 ≤ w := wilsonScore_nonneg u n hn hu0 hun
  apply wilson_le_of_quad u (n + 1) w (by linarith) hu0 (by linarith)
  have heq : (u - (n + 1) * w)^2 - (n + 1) * (zConst * zConst) * w * (1 - w)
      = -(w * (2 * (u - n * w) + zConst * zConst * (1 - w) - w)) := by
    linear_combination hroot
  rw [heq]
  simp only [neg_nonpos]
  exact mul_nonneg hw0 hT

theorem calculateConfidence_mem_Icc (u d : ℕ) :
    calculateConfidence u d ∈ Set.Icc (0:ℝ) 1 := by
  simp only [calculateConfidence]
  split_ifs with h
  · exact ⟨by norm_num, le_refl 1⟩
  · constructor
    · exact le_max_left 0 _
    · exact max_le (by norm_num) (min_le_left 1 _)

theorem calculateConfidence_zero_zero : calculateConfidence 0 0 = 1 := by
  unfold calculateConfidence
  norm_num

theorem wilsonScore_zero (n : ℝ) (hn : 0 < n) : wilsonScore 0 n = 0 := by
  unfold wilsonScore wilsonQ zConst
  rw [show ((0:ℝ)/n * (1 - 0/n) + 196/100*(196/100)/(4*n))/n = (196/100/(2*n))^2 by
    field_simp; ring]
  rw [Real.sqrt_sq (by positivity)]
  rw [div_eq_zero_iff]
  left
  field_simp
  ring

theorem calculateConfidence_zero_pos (d : ℕ) (hd : 0 < d) :
    calculateConfidence 0 d = 0 := by
  rw [calculateConfidence_pos 0 d (by omega)]
  rw [show ((0:ℕ):ℝ) + (d:ℝ) = (d:ℝ) by push_cast; ring]
  rw [show ((0:ℕ):ℝ) = (0:ℝ) by push_cast; ring]
  rw [wilsonScore_zero (d:ℝ) (by exact_mod_cast hd)]
  norm_num

theorem calculateConfidence_ten_zero : calculateConfidence 10 0 = 6250/8651 := by
  rw [calculateConfidence_pos 10 0 (by omega)]
  have hc : ((10:ℕ):ℝ) + ((0:ℕ):ℝ) = (10:ℝ) := by push_cast; ring
  rw [hc, show ((10:ℕ):ℝ) = (10:ℝ) by push_cast; ring]
  have hq : wilsonQ 10 10 = (49/500)^2 := by
    unfold wilsonQ zConst
    norm_num
  have hs : wilsonScore 10 10 = 6250/8651 := by
    unfold wilsonScore
    rw [hq, Real.sqrt_sq (by norm_num)]
    unfold zConst
    norm_num
  rw [hs]
  rw [min_eq_right (by norm_num), max_eq_right (by norm_num)]

theorem calculateConfidence_95_5_bounds :
    calculateConfidence 95 5 ∈ Set.Icc (8/10 : ℝ) 1 := by
  refine ⟨?_, (calculateConfidence_mem_Icc 95 5).2⟩
  rw [calculateConfidence_pos 95 5 (by omega)]
  have hc : ((95:ℕ):ℝ) + ((5:ℕ):ℝ) = (100:ℝ) := by push_cast; ring
  rw [hc, show ((95:ℕ):ℝ) = (95:ℝ) by push_cast; ring]
  have hS_le : Real.sqrt (wilsonQ 95 100) ≤ 239/10000 := by
    rw [show (239/10000 : ℝ) = Real.sqrt ((239/10000)^2) from
      (Real.sqrt_sq (by norm_num)).symm]
    apply Real.sqrt_le_sqrt
    unfold wilsonQ zConst
    norm_num
  have hs_lb : 8/10 ≤ wilsonScore 95 100 := by
    unfold wilsonScore zConst
    rw [le_div_iff₀ (by norm_num)]
    nlinarith [hS_le]
  calc (8/10:ℝ) ≤ min 1 (wilsonScore 95 100) := le_min (by norm_num) hs_lb
    _ ≤ max 0 (min 1 (wilsonScore 95 100)) := le_max_right _ _

theorem calculateConfidence_eq_spec_formula (u d : ℕ) :
    calculateConfidence u d = wilsonSpecConfidence u d := by
  unfold calculateConfidence wilsonSpecConfidence
  simp only [pow_two]

/-- C2: `calculateConfidence` computes exactly the spec's Wilson-score
lower bound on the proportion of positive feedback, clamped to `[0,1]`,
and in particular `calculateConfidence 0 0 = 1`,
`calculateConfidence 10 0 ∈ [0.7, 1]`,
`calculateConfidence 0 10 ∈ [0, 0.1]` and
`calculateConfidence 95 5 ∈ [0.8, 1]`. -/
theorem calculateConfidence_wilson_values :
    (∀ u d : ℕ, calculateConfidence u d = wilsonSpecConfidence u d)
    ∧ (∀ u d : ℕ, calculateConfidence u d ∈ Set.Icc (0:ℝ) 1)
    ∧ calculateConfidence 0 0 = 1
    ∧ calculateConfidence 10 0 ∈ Set.Icc (7/10 : ℝ) 1
    ∧ calculateConfidence 0 10 ∈ Set.Icc (0 : ℝ) (1/10)
    ∧ calculateConfidence 95 5 ∈ Set.Icc (8/10 : ℝ) 1 := by
  refine ⟨calculateConfidence_eq_spec_formula, calculateConfidence_mem_Icc,
    calculateConfidence_zero_zero, ?_, ?_, calculateConfidence_95_5_bounds⟩
  · rw [calculateConfidence_ten_zero]
    constructor <;> norm_num
  · rw [calculateConfidence_zero_pos 10 (by omega)]
    constructor <;> norm_num

/-- C9: holding positive votes fixed, one more negative vote never
raises the Wilson confidence:
`calculateConfidence u (d+1) ≤ calculateConfidence u d`. -/
theorem calculateConfidence_antitone_negative (u d : ℕ) :
    calculateConfidence u (d + 1) ≤ calculateConfidence u d := by
  by_cases h : u + d = 0
  · have hu : u = 0 := by omega
    have hd : d = 0 := by omega
    subst hu hd
    rw [calculateConfidence_zero_zero, calculateConfidence_zero_pos 1 (by omega)]
    norm_num
  · have h1 : 0 < u + d := Nat.pos_of_ne_zero h
    rw [calculateConfidence_pos u d h1, calculateConfidence_pos u (d+1) (by omega)]
    have hcast : ((u:ℝ) + ((d+1:ℕ):ℝ)) = ((u:ℝ) + (d:ℝ)) + 1 := by push_cast; ring
    rw [hcast]
    have hn : (0:ℝ) < (u:ℝ) + (d:ℝ) := by
      have : (0:ℝ) < ((u + d : ℕ) : ℝ) := by exact_mod_cast h1
      push_cast at this
      linarith
    have hu0 : (0:ℝ) ≤ (u:ℝ) := Nat.cast_nonneg u
    have hun : (u:ℝ) ≤ (u:ℝ) + (d:ℝ) := by
      have : (0:ℝ) ≤ (d:ℝ) := Nat.cast_nonneg d
      linarith
    have hmono := wilsonScore_succ_le (u:ℝ) ((u:ℝ) + (d:ℝ)) hn hu0 hun
    exact max_le_max le_rfl (min_le_min le_rfl hmono)

/-- Witness for C3 at a concrete input: an entry at 0 up / 4 down votes
receives a fifth, negative, vote — the recomputed confidence is `0`,
below `0.3` with `5` total votes, so the entry is deactivated; and a
concrete inactive row at similarity `1` is never selected by the
lookup. -/
theorem deactivation_excludes_from_lookup_witness :
    (updateAnswerConfidence ⟨0, 4, 1, true⟩ FeedbackType.thumbs_down).isActive = false
    ∧ searchAnswerLibraryRow [⟨7, "q", "a", 1, 1, 3, 0, false⟩] none {}
        ≠ some ⟨7, "q", "a", 1, 1, 3, 0, false⟩ := by
  constructor
  · apply deactivation_excludes_from_lookup.1 ⟨0, 4, 1, true⟩ .thumbs_down
    · have hc : (updateAnswerConfidence ⟨0, 4, 1, true⟩
          FeedbackType.thumbs_down).confidenceScore = calculateConfidence 0 5 := by
        simp [updateAnswerConfidence]
      rw [hc, calculateConfidence_zero_pos 5 (by omega)]
      norm_num
    · simp [updateAnswerConfidence]
  · exact deactivation_excludes_from_lookup.2 _ none {} _ rfl

end IntelligentSPM
